import Mathlib

/-!
Verification of the relational-to-document migration engine in
`src/streamlit_db_converter.py.py` (a Streamlit SQL-to-MongoDB converter).
The UI glue is out of scope; we shallowly embed the engine:

* `convert_sql_to_mongo_type` — the type mapper (source lines 96-113);
* the per-field normalization loop inside `migrate_table` (lines 140-148),
  as `normalizeValue` / `normalizeRec` over a closed scalar value model;
* the batching loop `for i in range(0, len(records), batch_size)`
  (lines 156-158), as `batches`;
* `migrate_table` (lines 116-170), with the effectful environment (the row
  fetch and each `insert_many` outcome) passed explicitly as `Env`;
* the migration loop of `main` (lines 343-384), as `main_migration`;
* `get_table_list` (lines 75-82), with the catalog query outcome passed
  explicitly.
-/

/-- Closed model of the dynamically-typed scalar values that can appear in a
row cell: `null` is Python `None`/SQL NULL, `nan` is any NaN-equivalent
(float NaN, `pd.NaT`) for which `pd.isna` is true, `vdatetime` covers both
`pd.Timestamp` and `datetime.datetime`, and the `np*` constructors are the
numpy scalar wrappers, i.e. exactly the values with an `.item()` method. -/
inductive Value where
  | null
  | nan
  | vint (n : Int)
  | vfloat (q : ℚ)
  | vbool (b : Bool)
  | vdatetime (ticks : Int)
  | vstr (s : String)
  | vbin (bytes : List Nat)
  | npint (n : Int)
  | npfloat (q : ℚ)
  | npbool (b : Bool)
deriving DecidableEq

/-- Model of `pd.isna(value)`: true exactly on `None` and the NaN-equivalent
markers. -/
def pd_isna : Value → Bool
  | .null => true
  | .nan => true
  | _ => false

/-- Model of `isinstance(value, (pd.Timestamp, datetime))`. -/
def is_datetime : Value → Bool
  | .vdatetime _ => true
  | _ => false

/-- Model of `hasattr(value, 'item')`: true exactly on the numpy scalar
wrappers. -/
def has_item : Value → Bool
  | .npint _ => true
  | .npfloat _ => true
  | .npbool _ => true
  | _ => false

/-- Model of `value.item()`: unwrap a numpy scalar wrapper to the plain
Python value; identity elsewhere (where the code never calls it). -/
def item : Value → Value
  | .npint n => .vint n
  | .npfloat q => .vfloat q
  | .npbool b => .vbool b
  | v => v

/-- The per-field body of the normalization loop in `migrate_table`
(lines 140-148): `pd.isna` → `None`; `pd.Timestamp`/`datetime` kept as is;
numpy wrappers unwrapped via `.item()`; everything else left unchanged. -/
def normalizeValue (v : Value) : Value :=
  if pd_isna v then .null
  else if is_datetime v then v
  else if has_item v then item v
  else v

/-- A row record, as produced by `df.to_dict('records')`: an ordered
association of column names to scalar values. -/
abbrev Rec := List (String × Value)

/-- The whole normalization loop applied to one record: every field value is
rewritten by `normalizeValue`, keys untouched. -/
def normalizeRec (r : Rec) : Rec :=
  r.map (fun kv => (kv.1, normalizeValue kv.2))

/-- Model of Python `str.lower()` (ASCII case folding, as applied to SQL
type signatures). -/
def lowerStr (s : String) : String :=
  String.mk (s.data.map Char.toLower)

/-- Character-list helper: does `s` start with `pat`? -/
def leadsWith : List Char → List Char → Bool
  | [], _ => true
  | _ :: _, [] => false
  | p :: ps, c :: cs => p == c && leadsWith ps cs

/-- Character-list helper: does `s` contain `pat` as a contiguous
substring? -/
def hasSubAux (pat : List Char) : List Char → Bool
  | [] => pat.isEmpty
  | c :: rest => leadsWith pat (c :: rest) || hasSubAux pat rest

/-- Model of the Python substring test `pat in s`. -/
def hasSub (s pat : String) : Bool :=
  hasSubAux pat.data s.data

/-- Embedding of `convert_sql_to_mongo_type` (source lines 96-113): lower
the raw type signature, then match the fixed precedence list of substring
rules top to bottom; no match falls through to `"string"`. -/
def convert_sql_to_mongo_type (sql_type : String) : String :=
  let s := lowerStr sql_type
  if hasSub s "int" || hasSub s "serial" then "integer"
  else if hasSub s "float" || hasSub s "double" || hasSub s "decimal" || hasSub s "numeric" then "float"
  else if hasSub s "bool" || hasSub s "bit" then "boolean"
  else if hasSub s "date" || hasSub s "time" then "datetime"
  else if hasSub s "json" then "json"
  else if hasSub s "blob" || hasSub s "binary" then "binary"
  else "string"

/-- The thirteen substrings tested by the precedence rules of
`convert_sql_to_mongo_type`, in rule order. -/
def mapperPatterns : List String :=
  ["int", "serial", "float", "double", "decimal", "numeric",
   "bool", "bit", "date", "time", "json", "blob", "binary"]

/-- Fuel-indexed chunking helper for the batching loop.  The fuel only makes
the recursion structural (each step drops at least one element when the
batch size is positive, so fuel = list length always suffices); the
meaningful definition is `batches` below. -/
def batchesAux (B : Nat) : Nat → List α → List (List α)
  | 0, _ => []
  | _ + 1, [] => []
  | fuel + 1, r@(_ :: _) => r.take B :: batchesAux B fuel (r.drop B)

/-- Embedding of the batching loop of `migrate_table` (lines 156-158):
`for i in range(0, len(records), batch_size): batch = records[i:i+batch_size]`.
For a positive batch size this yields the slices starting at 0, B, 2B, …. -/
def batches (r : List α) (B : Nat) : List (List α) :=
  batchesAux B r.length r

/-- The effectful environment one call of `migrate_table` runs against:
`fetch` is the outcome of reading the full table (`conn.execute` +
`fetchall`, which may raise), and `write j` is the outcome of the `j`-th
`collection.insert_many` call (`none` = committed, `some e` = raised with
message `e`). -/
structure Env where
  fetch : Except String (List Rec)
  write : Nat → Option String

/-- The observable outcome of `migrate_table`: the returned triple
(`success`, `message`, `rows`), plus the batches actually committed to the
target and the progress fractions reported, in order. -/
structure TableOutcome where
  success : Bool
  message : String
  rows : Nat
  written : List (List Rec)
  progress : List ℚ
deriving DecidableEq

/-- The insert loop of `migrate_table` (lines 156-162) over a prepared list
of batches, starting at batch index `j`: each batch is written via
`insert_many`; on success the progress fraction
`min((i + batch_size)/total_rows, 1.0)` is reported and the loop continues;
an exception aborts the loop.  Returns the committed batches, the reported
progress values, and the raised error if any. -/
def runBatches (write : Nat → Option String) (total B : Nat) :
    List (List Rec) → Nat → List (List Rec) × List ℚ × Option String
  | [], _ => ([], [], none)
  | b :: rest, j =>
    match write j with
    | some e => ([], [], some e)
    | none =>
      let r := runBatches write total B rest (j + 1)
      (b :: r.1, min (((j : ℚ) + 1) * (B : ℚ) / (total : ℚ)) 1 :: r.2.1, r.2.2)

/-- Embedding of `migrate_table` (lines 116-170).  A failed fetch or a
failed batch write is caught by the enclosing `try`/`except`, which returns
`(False, "Error: …", 0)` — note `rows = 0` regardless of already committed
batches.  An empty table short-circuits to `(True, "Table is empty", 0)`
before any write.  Otherwise all rows are normalized, chunked, and written
batch by batch. -/
def migrate_table (env : Env) (batch_size : Nat) : TableOutcome :=
  match env.fetch with
  | Except.error e => ⟨false, "Error: " ++ e, 0, [], []⟩
  | Except.ok rows =>
    let total := rows.length
    if total = 0 then ⟨true, "Table is empty", 0, [], []⟩
    else
      let records := rows.map normalizeRec
      let r := runBatches env.write total batch_size (batches records batch_size) 0
      match r.2.2 with
      | some e => ⟨false, "Error: " ++ e, 0, r.1, r.2.1⟩
      | none => ⟨true, "Successfully migrated " ++ toString total ++ " rows", total, r.1, r.2.1⟩

/-- One entry of the migration log appended in `main` (lines 366-372). -/
structure LogEntry where
  timestamp : String
  table : String
  status : String
  rows : Nat
  message : String
deriving DecidableEq

/-- The run-level accumulators of `main`'s migration loop (lines 343-384):
`success_count`, `failed_count`, `total_rows`, and the appended log
entries in table order. -/
structure RunSummary where
  success_count : Nat
  failed_count : Nat
  total_rows : Nat
  log : List LogEntry
deriving DecidableEq

/-- Embedding of the migration loop of `main` (lines 343-384): each selected
table is migrated in order against its own environment; a success bumps
`success_count` and adds its row count, a failure bumps `failed_count`; one
log entry is appended per table either way.  `now` supplies the timestamp
string for the `idx`-th append. -/
def main_migration (B : Nat) (now : Nat → String) :
    List (String × Env) → Nat → RunSummary
  | [], _ => ⟨0, 0, 0, []⟩
  | (name, env) :: rest, idx =>
    let o := migrate_table env B
    let tail := main_migration B now rest (idx + 1)
    { success_count := (if o.success then 1 else 0) + tail.success_count
      failed_count := (if o.success then 0 else 1) + tail.failed_count
      total_rows := (if o.success then o.rows else 0) + tail.total_rows
      log := ⟨now idx, name, if o.success then "Success" else "Failed", o.rows, o.message⟩ :: tail.log }

/-- Embedding of `get_table_list` (lines 75-82).  The argument is the
outcome of the catalog query `inspect(engine).get_table_names()` (which may
raise).  The outer `Except` is this function's own raise channel; the
`Option String` component is the message shown via `st.error`.  The
`try`/`except` catches every exception, shows the error, and returns `[]`,
so the function itself never raises. -/
def get_table_list (catalog : Except String (List String)) :
    Except String (List String × Option String) :=
  match catalog with
  | Except.ok ts => Except.ok (ts, none)
  | Except.error e => Except.ok ([], some ("Error fetching tables: " ++ e))

/-- A one-column sample record used by the concrete test environments. -/
def r0 : Rec := [("id", Value.vint 1)]

/-- Concrete environment for the mid-table write failure: 150 rows fetch
successfully, the first `insert_many` commits, the second raises. -/
def envC1 : Env :=
  ⟨Except.ok (List.replicate 150 r0),
   fun j => if j == 0 then none else some "bulk write error"⟩

/-- Concrete environment whose table is empty. -/
def envEmpty : Env := ⟨Except.ok [], fun _ => none⟩

/-- Concrete environment whose row fetch raises. -/
def envFail : Env := ⟨Except.error "connection reset", fun _ => none⟩

/-- Concrete environment with 150 rows and all batch writes succeeding. -/
def env150 : Env := ⟨Except.ok (List.replicate 150 r0), fun _ => none⟩

/-- Sanity check on a concrete input: a signature matching both the
"int" rule and the "date"/"time" rule resolves to `"integer"`. -/
theorem convert_example_int_wins :
    convert_sql_to_mongo_type "DATETIME_INT8" = "integer" := by decide

/-- Value-level idempotence of the normalization loop body. -/
theorem normalizeValue_idem (v : Value) :
    normalizeValue (normalizeValue v) = normalizeValue v := by
  cases v <;> rfl

/-- The fuel of `batchesAux` is irrelevant as long as it covers the list
length (each recursive step drops at least one element when `0 < B`). -/
theorem batchesAux_fuel_irrel {α : Type} (B : Nat) (hB : 0 < B) :
    ∀ (f₁ f₂ : Nat) (r : List α), r.length ≤ f₁ → r.length ≤ f₂ →
      batchesAux B f₁ r = batchesAux B f₂ r := by
  intro f₁
  induction f₁ with
  | zero =>
    intro f₂ r h₁ _
    have : r = [] := List.length_eq_zero.mp (Nat.le_zero.mp h₁)
    subst this
    cases f₂ <;> rfl
  | succ f ih =>
    intro f₂ r h₁ h₂
    cases r with
    | nil => cases f₂ <;> rfl
    | cons x xs =>
      cases f₂ with
      | zero => simp at h₂
      | succ f₂' =>
        simp only [List.length_cons] at h₁ h₂
        simp only [batchesAux]
        congr 1
        apply ih
        · simp only [List.length_drop, List.length_cons]; omega
        · simp only [List.length_drop, List.length_cons]; omega

/-- Chunking the empty list yields no batches. -/
theorem batches_nil {α : Type} (B : Nat) : batches ([] : List α) B = [] := rfl

/-- Unfolding of the batching loop on a nonempty list: the first slice is
`records[0:B]`, the rest chunks the remainder. -/
theorem batches_cons {α : Type} (B : Nat) (hB : 0 < B) (r : List α) (hr : r ≠ []) :
    batches r B = r.take B :: batches (r.drop B) B := by
  cases r with
  | nil => exact absurd rfl hr
  | cons x xs =>
    show batchesAux B (x :: xs).length (x :: xs) = _
    simp only [List.length_cons, batchesAux]
    congr 1
    exact batchesAux_fuel_irrel B hB xs.length ((x :: xs).drop B).length ((x :: xs).drop B)
      (by simp [List.length_drop]; omega) (le_refl _)

/-- Concatenating the batches in order reproduces the records exactly, in
the source order. -/
theorem batches_join {α : Type} (B : Nat) (hB : 0 < B) (r : List α) :
    (batches r B).flatten = r := by
  rcases eq_or_ne r [] with h | h
  · subst h; rfl
  · rw [batches_cons B hB r h]
    rw [List.flatten_cons, batches_join B hB (r.drop B)]
    exact List.take_append_drop B r
termination_by r.length
decreasing_by
  simp only [List.length_drop]
  have : 0 < r.length := List.length_pos.mpr h
  omega

/-- The number of batches is the ceiling `⌈N/B⌉ = (N + B - 1) / B`. -/
theorem batches_count {α : Type} (B : Nat) (hB : 0 < B) (r : List α) :
    (batches r B).length = (r.length + B - 1) / B := by
  rcases eq_or_ne r [] with h | h
  · subst h
    simp only [batches_nil, List.length_nil]
    rw [Nat.div_eq_of_lt (by omega)]
  · rw [batches_cons B hB r h]
    simp only [List.length_cons, batches_count B hB (r.drop B), List.length_drop]
    have hlen : 0 < r.length := List.length_pos.mpr h
    rcases le_or_lt r.length B with hle | hlt
    · have h1 : r.length - B = 0 := by omega
      rw [h1]
      have e1 : (0 + B - 1) / B = 0 := Nat.div_eq_of_lt (by omega)
      have e2 : (r.length + B - 1) / B = 1 := Nat.div_eq_of_lt_le (by omega) (by omega)
      rw [e1, e2]
    · have h2 : r.length + B - 1 = (r.length - B + B - 1) + B := by omega
      rw [h2, Nat.add_div_right _ hB]
termination_by r.length
decreasing_by
  simp only [List.length_drop]
  have : 0 < r.length := List.length_pos.mpr h
  omega

/-- Every batch the loop produces has at most `B` records. -/
theorem batches_sizes {α : Type} (B : Nat) (hB : 0 < B) (r : List α) :
    ∀ b ∈ batches r B, b.length ≤ B := by
  rcases eq_or_ne r [] with h | h
  · subst h; simp [batches_nil]
  · rw [batches_cons B hB r h]
    intro b hb
    rcases List.mem_cons.mp hb with h1 | h2
    · subst h1; simp [List.length_take]
    · exact batches_sizes B hB (r.drop B) b h2
termination_by r.length
decreasing_by
  simp only [List.length_drop]
  have : 0 < r.length := List.length_pos.mpr h
  omega

/-- Every batch except possibly the last has exactly `B` records. -/
theorem batches_full_sizes {α : Type} (B : Nat) (hB : 0 < B) (r : List α) :
    ∀ b ∈ (batches r B).dropLast, b.length = B := by
  rcases eq_or_ne r [] with h | h
  · subst h; simp [batches_nil]
  · rw [batches_cons B hB r h]
    rcases eq_or_ne (r.drop B) [] with hd | hd
    · rw [hd, batches_nil]
      simp
    · have hlt : B < r.length := by
        by_contra hc
        exact hd (List.drop_eq_nil_of_le (by omega))
      have hne : batches (r.drop B) B ≠ [] := by
        rw [batches_cons B hB (r.drop B) hd]
        simp
      rw [List.dropLast_cons_of_ne_nil hne]
      intro b hb
      rcases List.mem_cons.mp hb with h1 | h2
      · subst h1; simp [List.length_take]; omega
      · exact batches_full_sizes B hB (r.drop B) b h2
termination_by r.length
decreasing_by
  all_goals
    simp only [List.length_drop]
    have : 0 < r.length := List.length_pos.mpr h
    omega

/-- If the first `k` `insert_many` calls succeed and the `k`-th (0-based)
raises, the insert loop commits exactly the first `k` batches and stops
with that error. -/
theorem runBatches_fail (write : Nat → Option String) (total B : Nat) :
    ∀ (bs : List (List Rec)) (j k : Nat) (err : String),
      k < bs.length → write (j + k) = some err →
      (∀ t, t < k → write (j + t) = none) →
      ∃ P, runBatches write total B bs j = (bs.take k, P, some err) := by
  intro bs
  induction bs with
  | nil => intro j k err hk _ _; simp at hk
  | cons b rest ih =>
    intro j k err hk hfail hprev
    cases k with
    | zero =>
      refine ⟨[], ?_⟩
      simp only [runBatches]
      rw [show j + 0 = j from rfl] at hfail
      rw [hfail]
      simp
    | succ k' =>
      have h0 : write j = none := by
        have := hprev 0 (Nat.succ_pos k')
        simpa using this
      obtain ⟨P, hP⟩ := ih (j + 1) k' err
        (by simp at hk; omega)
        (by rw [show j + 1 + k' = j + (k' + 1) from by omega]; exact hfail)
        (fun t ht => by
          rw [show j + 1 + t = j + (t + 1) from by omega]
          exact hprev (t + 1) (by omega))
      refine ⟨min (((j : ℚ) + 1) * (B : ℚ) / (total : ℚ)) 1 :: P, ?_⟩
      simp [runBatches, h0, hP, List.take_succ_cons]

/-- The progress values reported by the insert loop: each is at most 1,
each is at least the first one reported, consecutive ones are
non-decreasing, and there is exactly one per committed batch. -/
theorem runBatches_progress (write : Nat → Option String) (total B : Nat)
    (htot : 0 < total) :
    ∀ (bs : List (List Rec)) (j : Nat),
      ((runBatches write total B bs j).2.1.Chain' (· ≤ ·)) ∧
      (∀ q ∈ (runBatches write total B bs j).2.1, q ≤ 1) ∧
      (∀ q ∈ (runBatches write total B bs j).2.1,
        min (((j : ℚ) + 1) * (B : ℚ) / (total : ℚ)) 1 ≤ q) ∧
      ((runBatches write total B bs j).2.1.length =
        (runBatches write total B bs j).1.length) := by
  intro bs
  induction bs with
  | nil => intro j; simp [runBatches]
  | cons b rest ih =>
    intro j
    cases hw : write j with
    | some e => simp [runBatches, hw]
    | none =>
      obtain ⟨ihChain, ihLe, ihLo, ihLen⟩ := ih (j + 1)
      have htotQ : (0 : ℚ) < (total : ℚ) := by exact_mod_cast htot
      have hstep : min (((j : ℚ) + 1) * (B : ℚ) / (total : ℚ)) 1 ≤
          min ((((j : ℚ) + 1) + 1) * (B : ℚ) / (total : ℚ)) 1 := by
        have hB0 : (0 : ℚ) ≤ (B : ℚ) := by positivity
        refine min_le_min ((div_le_div_iff_of_pos_right htotQ).mpr ?_) le_rfl
        exact mul_le_mul_of_nonneg_right (by linarith) hB0
      refine ⟨?_, ?_, ?_, ?_⟩
      · simp only [runBatches, hw]
        refine List.chain'_cons'.mpr ⟨?_, ihChain⟩
        intro q hq
        have hq' : q ∈ (runBatches write total B rest (j + 1)).2.1 :=
          List.mem_of_mem_head? hq
        have := ihLo q hq'
        calc min (((j : ℚ) + 1) * (B : ℚ) / (total : ℚ)) 1
            ≤ min ((((j : ℚ) + 1) + 1) * (B : ℚ) / (total : ℚ)) 1 := hstep
          _ ≤ q := by exact_mod_cast this
      · simp only [runBatches, hw]
        intro q hq
        rcases List.mem_cons.mp hq with h1 | h2
        · subst h1; exact min_le_right _ _
        · exact ihLe q h2
      · simp only [runBatches, hw]
        intro q hq
        rcases List.mem_cons.mp hq with h1 | h2
        · subst h1; exact le_rfl
        · calc min (((j : ℚ) + 1) * (B : ℚ) / (total : ℚ)) 1
              ≤ min ((((j : ℚ) + 1) + 1) * (B : ℚ) / (total : ℚ)) 1 := hstep
            _ ≤ q := by exact_mod_cast ihLo q h2
      · simp only [runBatches, hw, List.length_cons]
        omega

/-- C2: for every source type signature, `convert_sql_to_mongo_type` is a
total deterministic function into the seven-tag set; the first matching
rule wins (in particular any signature containing "int" maps to
`"integer"`, whatever else it contains), and a signature matching none of
the thirteen substring rules maps to `"string"`. -/
theorem type_mapper_total_and_first_match_wins (t : String) :
    convert_sql_to_mongo_type t ∈
      (["integer", "float", "boolean", "datetime", "json", "binary", "string"] : List String) ∧
    (hasSub (lowerStr t) "int" = true → convert_sql_to_mongo_type t = "integer") ∧
    ((∀ p ∈ mapperPatterns, hasSub (lowerStr t) p = false) →
      convert_sql_to_mongo_type t = "string") := by
  refine ⟨?_, ?_, ?_⟩
  · simp only [convert_sql_to_mongo_type]
    split_ifs <;> simp
  · intro h
    simp [convert_sql_to_mongo_type, h]
  · intro h
    have h1 := h "int" (by simp [mapperPatterns])
    have h2 := h "serial" (by simp [mapperPatterns])
    have h3 := h "float" (by simp [mapperPatterns])
    have h4 := h "double" (by simp [mapperPatterns])
    have h5 := h "decimal" (by simp [mapperPatterns])
    have h6 := h "numeric" (by simp [mapperPatterns])
    have h7 := h "bool" (by simp [mapperPatterns])
    have h8 := h "bit" (by simp [mapperPatterns])
    have h9 := h "date" (by simp [mapperPatterns])
    have h10 := h "time" (by simp [mapperPatterns])
    have h11 := h "json" (by simp [mapperPatterns])
    have h12 := h "blob" (by simp [mapperPatterns])
    have h13 := h "binary" (by simp [mapperPatterns])
    simp [convert_sql_to_mongo_type, h1, h2, h3, h4, h5, h6, h7, h8, h9, h10,
      h11, h12, h13]

/-- Witness for C2 at concrete inputs: "BIGINT DATE" contains both "int"
and "date" and resolves to integer; "varchar(255)" matches no rule and
falls through to string. -/
theorem type_mapper_total_and_first_match_wins_witness :
    convert_sql_to_mongo_type "BIGINT DATE" = "integer" ∧
    convert_sql_to_mongo_type "varchar(255)" = "string" :=
  ⟨(type_mapper_total_and_first_match_wins "BIGINT DATE").2.1 (by decide),
   (type_mapper_total_and_first_match_wins "varchar(255)").2.2 (by decide)⟩

/-- C6: normalization is per-field and total (it never raises): every input
field shows up normalized in the output, a NULL/NaN-equivalent field
becomes null, and a value classified by none of the rules passes through
unchanged, as its own (string/boolean/binary) representation. -/
theorem normalizer_never_fails (r : Rec) (k : String) (v : Value)
    (h : (k, v) ∈ r) :
    (k, normalizeValue v) ∈ normalizeRec r ∧
    (pd_isna v = true → normalizeValue v = Value.null) ∧
    (pd_isna v = false → is_datetime v = false → has_item v = false →
      normalizeValue v = v) := by
  refine ⟨List.mem_map.mpr ⟨(k, v), h, rfl⟩, ?_, ?_⟩
  · intro hna
    simp [normalizeValue, hna]
  · intro h1 h2 h3
    simp [normalizeValue, h1, h2, h3]

/-- Witness for C6: a NaN field of a concrete record is normalized to
null. -/
theorem normalizer_never_fails_witness :
    ("a", normalizeValue Value.nan) ∈
      normalizeRec [("a", Value.nan), ("b", Value.vstr "x")] ∧
    (pd_isna Value.nan = true → normalizeValue Value.nan = Value.null) ∧
    (pd_isna Value.nan = false → is_datetime Value.nan = false →
      has_item Value.nan = false → normalizeValue Value.nan = Value.nan) :=
  normalizer_never_fails [("a", Value.nan), ("b", Value.vstr "x")] "a"
    Value.nan (by decide)

/-- C7: normalization is idempotent on whole records — applying the
per-field rules a second time changes nothing. -/
theorem normalizer_idempotent (r : Rec) :
    normalizeRec (normalizeRec r) = normalizeRec r := by
  induction r with
  | nil => rfl
  | cons kv rest ih =>
    simp only [normalizeRec, List.map_cons] at ih ⊢
    rw [normalizeValue_idem]
    exact congrArg _ ih

/-- C4: a table whose fetch returns zero rows is reported as a success with
zero rows and the message "Table is empty", and no batch is ever written
to the target. -/
theorem migrate_empty_table (env : Env) (B : Nat)
    (h : env.fetch = Except.ok []) :
    migrate_table env B = ⟨true, "Table is empty", 0, [], []⟩ := by
  simp [migrate_table, h]

/-- Witness for C4: the concrete empty-table environment. -/
theorem migrate_empty_table_witness :
    migrate_table envEmpty 1000 = ⟨true, "Table is empty", 0, [], []⟩ :=
  migrate_empty_table envEmpty 1000 rfl

/-- C10: whenever `migrate_table` reports failure its returned row count is
exactly 0, even when earlier batches of the table were already
committed. -/
theorem migrate_failure_reports_zero_rows (env : Env) (B : Nat)
    (h : (migrate_table env B).success = false) :
    (migrate_table env B).rows = 0 := by
  obtain ⟨fetch, write⟩ := env
  cases fetch with
  | error e => rfl
  | ok rows =>
    by_cases h0 : rows.length = 0
    · exfalso
      simp [migrate_table, h0] at h
    · simp only [migrate_table, h0, if_false] at h ⊢
      cases hr : (runBatches write rows.length B
          (batches (List.map normalizeRec rows) B) 0).2.2 with
      | none => rw [hr] at h; simp at h
      | some e => rfl

/-- Witness for C10: the environment whose fetch raises yields a failed
migration with zero reported rows. -/
theorem migrate_failure_reports_zero_rows_witness :
    (migrate_table envFail 1000).rows = 0 :=
  migrate_failure_reports_zero_rows envFail 1000 rfl

/-- C3: for a nonempty table and a batch size within the UI bounds
`100 ≤ B ≤ 10000`, the batching loop produces exactly
`⌈N/B⌉ = (N + B - 1) / B` batches, every batch has at most `B` rows, every
batch except possibly the last has exactly `B` rows, and concatenating the
batches in order reproduces all `N` rows exactly once in query order. -/
theorem batching_exact (r : List Rec) (B : Nat)
    (hN : 0 < r.length) (hB1 : 100 ≤ B) (hB2 : B ≤ 10000) :
    (batches r B).length = (r.length + B - 1) / B ∧
    (∀ b ∈ batches r B, b.length ≤ B) ∧
    (∀ b ∈ (batches r B).dropLast, b.length = B) ∧
    (batches r B).flatten = r := by
  have hB : 0 < B := by omega
  have _ := hN
  exact ⟨batches_count B hB r, batches_sizes B hB r,
    batches_full_sizes B hB r, batches_join B hB r⟩

/-- Witness for C3: 205 rows with batch size 100 give three batches
(100, 100, 5) whose concatenation is the original row list. -/
theorem batching_exact_witness :
    (batches (List.replicate 205 r0) 100).length =
      ((List.replicate 205 r0).length + 100 - 1) / 100 ∧
    (∀ b ∈ batches (List.replicate 205 r0) 100, b.length ≤ 100) ∧
    (∀ b ∈ (batches (List.replicate 205 r0) 100).dropLast, b.length = 100) ∧
    (batches (List.replicate 205 r0) 100).flatten = List.replicate 205 r0 :=
  batching_exact (List.replicate 205 r0) 100
    (by simp only [List.length_replicate]; omega) (by omega) (by omega)

/-- C9: within one table whose fetch succeeded with at least one row, the
progress fractions reported by the insert loop are monotonically
non-decreasing, never exceed 1, and one is reported after every committed
batch write. -/
theorem migrate_progress_monotone (env : Env) (B : Nat) (rs : List Rec)
    (hfetch : env.fetch = Except.ok rs) (hne : rs ≠ []) :
    ((migrate_table env B).progress).Chain' (· ≤ ·) ∧
    (∀ q ∈ (migrate_table env B).progress, q ≤ 1) ∧
    (migrate_table env B).progress.length =
      (migrate_table env B).written.length := by
  have h0 : ¬ rs.length = 0 := fun hc => hne (List.length_eq_zero.mp hc)
  have htot : 0 < rs.length := Nat.pos_of_ne_zero h0
  obtain ⟨hChain, hLe, _, hLen⟩ :=
    runBatches_progress env.write rs.length B htot
      (batches (rs.map normalizeRec) B) 0
  simp only [migrate_table, hfetch, h0, if_false]
  cases hr : (runBatches env.write rs.length B
      (batches (List.map normalizeRec rs) B) 0).2.2 with
  | none => exact ⟨hChain, hLe, hLen⟩
  | some e => exact ⟨hChain, hLe, hLen⟩

/-- Witness for C9: the 150-row environment with all writes committing. -/
theorem migrate_progress_monotone_witness :
    ((migrate_table env150 100).progress).Chain' (· ≤ ·) ∧
    (∀ q ∈ (migrate_table env150 100).progress, q ≤ 1) ∧
    (migrate_table env150 100).progress.length =
      (migrate_table env150 100).written.length :=
  migrate_progress_monotone env150 100 (List.replicate 150 r0) rfl (by simp)

set_option maxRecDepth 8000 in
/-- Counterexample to C1 as stated: with 150 rows and batch size 100, the
first `insert_many` commits 100 rows and the second raises, yet
`migrate_table` reports 0 migrated rows — not the 100 rows of the committed
batches 1..k-1. -/
theorem migrate_midfail_partial_rows_counterexample :
    (migrate_table envC1 100).success = false ∧
    ((migrate_table envC1 100).written.map List.length).sum = 100 ∧
    (migrate_table envC1 100).rows = 0 ∧
    (migrate_table envC1 100).rows ≠
      ((migrate_table envC1 100).written.map List.length).sum := by
  refine ⟨rfl, rfl, rfl, by decide⟩

/-- C1 (amended): if the fetch succeeded and `insert_many` raises on batch
`k` (0-based) after batches `0..k-1` committed, the table's migration
returns Failed, its reported row count is 0 (the committed batches remain
in the target but are not counted), and the next selected table is still
attempted — the run's log gains a Failed entry with 0 rows for this table
followed by an entry for the next table. -/
theorem migrate_midfail_amended (B : Nat) (now : Nat → String) (idx : Nat)
    (n₁ n₂ : String) (e₁ e₂ : Env) (rest : List (String × Env))
    (rs : List Rec) (k : Nat) (err : String)
    (hfetch : e₁.fetch = Except.ok rs)
    (hk : k < (batches (rs.map normalizeRec) B).length)
    (hfail : e₁.write k = some err)
    (hprev : ∀ t, t < k → e₁.write t = none) :
    (migrate_table e₁ B).success = false ∧
    (migrate_table e₁ B).rows = 0 ∧
    (migrate_table e₁ B).written = (batches (rs.map normalizeRec) B).take k ∧
    ((main_migration B now ((n₁, e₁) :: (n₂, e₂) :: rest) idx).log.get? 0).map
      LogEntry.status = some "Failed" ∧
    ((main_migration B now ((n₁, e₁) :: (n₂, e₂) :: rest) idx).log.get? 0).map
      LogEntry.rows = some 0 ∧
    ((main_migration B now ((n₁, e₁) :: (n₂, e₂) :: rest) idx).log.get? 1).map
      LogEntry.table = some n₂ := by
  obtain ⟨P, hP⟩ := runBatches_fail e₁.write rs.length B
    (batches (rs.map normalizeRec) B) 0 k err hk
    (by simpa using hfail)
    (fun t ht => by simpa using hprev t ht)
  have h0 : ¬ rs.length = 0 := by
    intro hc
    rw [List.length_eq_zero.mp hc] at hk
    simp [batches_nil] at hk
  have hmt : migrate_table e₁ B =
      ⟨false, "Error: " ++ err, 0, (batches (List.map normalizeRec rs) B).take k, P⟩ := by
    simp only [migrate_table, hfetch, h0, if_false, hP]
  refine ⟨by rw [hmt], by rw [hmt], by rw [hmt], ?_, ?_, ?_⟩
  · simp [main_migration, hmt]
  · simp [main_migration, hmt]
  · simp [main_migration]

set_option maxRecDepth 8000 in
/-- Witness for the amended C1: tables ["a", "b"] where "a" has 150 rows
and its second batch write raises; "b" is still attempted. -/
theorem migrate_midfail_amended_witness :
    (migrate_table envC1 100).success = false ∧
    (migrate_table envC1 100).rows = 0 ∧
    (migrate_table envC1 100).written =
      (batches ((List.replicate 150 r0).map normalizeRec) 100).take 1 ∧
    ((main_migration 100 (fun _ => "2025-01-01 00:00:00")
        (("a", envC1) :: ("b", envEmpty) :: []) 0).log.get? 0).map
      LogEntry.status = some "Failed" ∧
    ((main_migration 100 (fun _ => "2025-01-01 00:00:00")
        (("a", envC1) :: ("b", envEmpty) :: []) 0).log.get? 0).map
      LogEntry.rows = some 0 ∧
    ((main_migration 100 (fun _ => "2025-01-01 00:00:00")
        (("a", envC1) :: ("b", envEmpty) :: []) 0).log.get? 1).map
      LogEntry.table = some "b" :=
  migrate_midfail_amended 100 (fun _ => "2025-01-01 00:00:00") 0 "a" "b"
    envC1 envEmpty [] (List.replicate 150 r0) 1 "bulk write error" rfl
    (by decide) (by decide) (by decide)

/-- C5: over any selected sequence of tables processed in order, the run
summary counts exactly the successful and failed tables, the total row
count is the sum of the rows reported by the successful tables only, and
one log entry is appended per table. -/
theorem run_summary_counts (B : Nat) (now : Nat → String)
    (tables : List (String × Env)) (idx : Nat) :
    (main_migration B now tables idx).success_count =
      (tables.filter (fun te => (migrate_table te.2 B).success)).length ∧
    (main_migration B now tables idx).failed_count =
      (tables.filter (fun te => !(migrate_table te.2 B).success)).length ∧
    (main_migration B now tables idx).total_rows =
      ((tables.filter (fun te => (migrate_table te.2 B).success)).map
        (fun te => (migrate_table te.2 B).rows)).sum ∧
    (main_migration B now tables idx).log.length = tables.length := by
  induction tables generalizing idx with
  | nil => exact ⟨rfl, rfl, rfl, rfl⟩
  | cons te rest ih =>
    obtain ⟨n, e⟩ := te
    obtain ⟨ih1, ih2, ih3, ih4⟩ := ih (idx + 1)
    cases hs : (migrate_table e B).success <;>
      simp [main_migration, List.filter_cons, hs, ih1, ih2, ih3, ih4] <;>
      omega

/-- Counterexample to C8 as stated: when the catalog query fails,
`get_table_list` does not propagate a ConnectionError to its caller — it
returns normally with an empty table list (plus an error message shown in
the UI). -/
theorem get_table_list_error_counterexample :
    (get_table_list (Except.error "connection refused")).isOk = true ∧
    get_table_list (Except.error "connection refused") =
      Except.ok ([], some "Error fetching tables: connection refused") :=
  ⟨rfl, rfl⟩

/-- C8 (amended): `get_table_list` never raises; when the catalog query
fails it reports the error through the UI (`st.error`) and returns the
empty table sequence. -/
theorem get_table_list_catches_and_returns_empty
    (catalog : Except String (List String)) :
    (get_table_list catalog).isOk = true ∧
    (∀ e, catalog = Except.error e →
      get_table_list catalog =
        Except.ok ([], some ("Error fetching tables: " ++ e))) := by
  cases catalog with
  | ok ts => exact ⟨rfl, fun e he => by simp at he⟩
  | error e' =>
    refine ⟨rfl, fun e he => ?_⟩
    rw [Except.error.injEq] at he
    subst he
    rfl

/-- Witness for the amended C8 at a concrete failing catalog query. -/
theorem get_table_list_catches_witness :
    (get_table_list (Except.error "timeout")).isOk = true ∧
    get_table_list (Except.error "timeout") =
      Except.ok ([], some ("Error fetching tables: " ++ "timeout")) :=
  ⟨(get_table_list_catches_and_returns_empty (Except.error "timeout")).1,
   (get_table_list_catches_and_returns_empty (Except.error "timeout")).2
     "timeout" rfl⟩
